import Mathlib

/-!
Shallow embedding of the SD CGraph Renderer extension
(src/SD_CGraph_Renderer.py, v0.1.7): the node-tree surgery that injects
and removes the bridging curve-to-mesh node, the overlay lifecycle
operators (toggle / refresh), the per-frame draw callback's GPU-state
effect together with its edge classification, and the small pure
helpers (graph-scale probing, heatmap coloring, zero clamping).

Machine floats of the source are modelled as rationals; Python
dictionaries as association lists; Blender collections as lists in
collection order.  Failure paths that the source handles with silent
no-ops (missing tree, missing output node, unlinked socket) are
modelled by returning the input unchanged.
-/

namespace SDCGraph

/-- The reserved bridging-node name (source line 19). -/
def AUTO_NODE_NAME : String := "SNA_Auto_CurveToMesh"

/-- A Python value as storable under a modifier's key-indexed inputs;
`mod.get(key)` yields one of these or `None`.  Booleans satisfy
`isinstance(val, (int, float))` in Python, so they carry a numeric
reading. -/
inductive PVal where
  | pint : Int → PVal
  | pfloat : ℚ → PVal
  | pbool : Bool → PVal
  | pstr : String → PVal
deriving DecidableEq

/-- Dictionary lookup, `d.get(key)`: the value of the first binding of
`key`, if any. -/
def dictGet (props : List (String × PVal)) (key : String) : Option PVal :=
  (props.find? (fun p => p.1 == key)).map Prod.snd

/-- The fixed probe order of `get_modifier_scale_value`
(source line 34). -/
def candidate_keys : List String := ["Graph Scale", "Input_3", "GraphScale", "Scale"]

/-- The probe loop of `get_modifier_scale_value` (source lines 35-39):
for each key in order, `val = mod.get(key)`; when `val` is not `None`
and is an `int`/`float` instance (booleans included), return
`float(val)`; if the loop falls through, return `1.0`. -/
def scaleProbe (props : List (String × PVal)) : List String → ℚ
  | [] => 1
  | key :: rest =>
    match dictGet props key with
    | some (.pint n) => (n : ℚ)
    | some (.pfloat q) => q
    | some (.pbool b) => if b then 1 else 0
    | _ => scaleProbe props rest

/-- Numeric reading of an optional Python value: the extraction used to
state the specification's "first numeric value found" independently of
the probe loop. -/
def numValue : Option PVal → Option ℚ
  | some (.pint n) => some (n : ℚ)
  | some (.pfloat q) => some q
  | some (.pbool b) => some (if b then 1 else 0)
  | _ => none

/-- Sockets are identified by their owning node's name and a socket
identifier within that node. -/
structure Socket where
  node : String
  sock : String
deriving DecidableEq

/-- A node-tree link from an output socket to an input socket. -/
structure Link where
  fromSocket : Socket
  toSocket : Socket
deriving DecidableEq

/-- A node of a geometry node tree, with the attributes the source
touches. -/
structure Node where
  name : String
  ntype : String
  is_active_output : Bool
  inputs : List String
  outputs : List String
  locx : Int
  locy : Int
  label : String
  select : Bool
deriving DecidableEq

/-- A geometry node group: a named tree of nodes and links, in
collection order. -/
structure NodeTree where
  name : String
  nodes : List Node
  links : List Link
deriving DecidableEq

/-- A modifier on an object: its type tag, optional node group, and its
key-indexed inputs (`mod.get`). -/
structure Modifier where
  mtype : String
  node_group : Option NodeTree
  props : List (String × PVal)
deriving DecidableEq

/-- The evaluated mesh of an object: vertex count and edge list as
vertex-index pairs. -/
structure Mesh where
  nverts : Nat
  edges : List (Nat × Nat)
deriving DecidableEq

/-- A scene object with the attributes the source touches.  `eval_mesh`
is the dependency-graph-evaluated mesh; `none` models a `to_mesh`
failure (the `RuntimeError` branch).  `sd_cgraph_color` is `none` when
the per-object color property is not attached. -/
structure Object where
  name : String
  otype : String
  visible : Bool
  modifiers : List Modifier
  eval_mesh : Option Mesh
  sd_cgraph_color : Option (ℚ × ℚ × ℚ × ℚ)
deriving DecidableEq

/-- The scene: its objects plus the five extension-managed configuration
fields, each `none` when the property is not attached (so that `getattr`
with a default is observable). -/
structure Scene where
  objects : List Object
  sd_cgraph_thickness : Option ℚ
  sd_cgraph_always_on_top : Option Bool
  sd_cgraph_use_gradient : Option Bool
  sd_cgraph_gradient_max : Option ℚ
  sd_cgraph_connector_color : Option (ℚ × ℚ × ℚ × ℚ)
deriving DecidableEq

/-- The module-level state (source lines 17-18): the draw-handler handle
and the active flag. -/
structure GlobalState where
  draw_handler : Option Nat
  is_drawing_active : Bool
deriving DecidableEq

/-- The mutable GPU state the draw callback touches via `gpu.state`. -/
structure GPUState where
  line_width : ℚ
  depth_test : String
deriving DecidableEq

/-- Substring test on character lists, modelling Python's `in` operator
on strings. -/
def charsContain (pat : List Char) : List Char → Bool
  | [] => pat.isEmpty
  | c :: rest => pat.isPrefixOf (c :: rest) || charsContain pat rest

/-- Python's `str.lower()`, character by character. -/
def strToLower (s : String) : String :=
  ⟨s.data.map Char.toLower⟩

/-- Whether a node-group name matches the extension's naming convention:
`"cgraph" in name.lower()` (source line 48). -/
def nameHasCgraph (s : String) : Bool :=
  charsContain "cgraph".data (strToLower s).data

-- HELPER FUNCTIONS (source lines 25-39)

/-- Clamp a rational into the unit interval, as `CLAMP(x, 0.0f, 1.0f)`
does in the host's color code. -/
def clamp01 (x : ℚ) : ℚ := if x < 0 then 0 else if 1 < x then 1 else x

/-- Modelled from the spec: the host's hue-saturation-value to
red-green-blue conversion behind `mathutils.Color.hsv` (host code, not
in src/).  The host computes each channel as a clamped triangular wave
of the hue and blends by saturation and value. -/
def hsv_to_rgb (h s v : ℚ) : ℚ × ℚ × ℚ :=
  let nr := clamp01 (|h * 6 - 3| - 1)
  let ng := clamp01 (2 - |h * 6 - 2|)
  let nb := clamp01 (2 - |h * 6 - 4|)
  (((nr - 1) * s + 1) * v, ((ng - 1) * s + 1) * v, ((nb - 1) * s + 1) * v)

/-- The heatmap color mapper `get_heatmap_color` (source lines 25-30):
hue `(1 - value) * 0.66` at full saturation and value, converted to
red-green-blue, with the given alpha appended. -/
def get_heatmap_color (value : ℚ) (alpha : ℚ := 1) : ℚ × ℚ × ℚ × ℚ :=
  let hue := (1 - value) * (66 / 100)
  let c := hsv_to_rgb hue 1 1
  (c.1, c.2.1, c.2.2, alpha)

/-- The graph-scale reader `get_modifier_scale_value`
(source lines 32-39). -/
def get_modifier_scale_value (m : Modifier) : ℚ :=
  scaleProbe m.props candidate_keys

/-- A color quadruple is blue-dominant when its blue channel strictly
exceeds its red and green channels. -/
def blueDominant (c : ℚ × ℚ × ℚ × ℚ) : Prop :=
  c.1 < c.2.2.1 ∧ c.2.1 < c.2.2.1

/-- A color quadruple is green-dominant when its green channel strictly
exceeds its red and blue channels. -/
def greenDominant (c : ℚ × ℚ × ℚ × ℚ) : Prop :=
  c.1 < c.2.1 ∧ c.2.2.1 < c.2.1

/-- A color quadruple is red-dominant when its red channel strictly
exceeds its green and blue channels. -/
def redDominant (c : ℚ × ℚ × ℚ × ℚ) : Prop :=
  c.2.1 < c.1 ∧ c.2.2.1 < c.1

-- AUTO NODE MANAGEMENT (source lines 45-98)

/-- Whether a modifier is a node-based modifier whose attached group
matches the cgraph naming convention (the condition of
`find_modifier_and_tree`, source lines 46-48, re-checked inline by the
draw callback at lines 139-142). -/
def modMatches (m : Modifier) : Bool :=
  m.mtype == "NODES" &&
    (match m.node_group with
     | some g => nameHasCgraph g.name
     | none => false)

/-- The locator `find_modifier_and_tree` (source lines 45-50): the first
matching modifier together with its node group, or nothing. -/
def find_modifier_and_tree (obj : Object) : Option (Modifier × NodeTree) :=
  obj.modifiers.findSome? (fun m =>
    if modMatches m then m.node_group.map (fun g => (m, g)) else none)

/-- Whether the tree holds a node with the reserved name
(`AUTO_NODE_NAME in tree.nodes`; node collections key by name). -/
def hasAutoNode (tree : NodeTree) : Bool :=
  tree.nodes.any (fun n => n.name == AUTO_NODE_NAME)

/-- The output-node search of `inject_curve_to_mesh` (source
lines 56-63): the first `GROUP_OUTPUT` node flagged as active output,
else the first `GROUP_OUTPUT` node, else nothing. -/
def findOutputNode (tree : NodeTree) : Option Node :=
  match tree.nodes.find? (fun n => n.ntype == "GROUP_OUTPUT" && n.is_active_output) with
  | some n => some n
  | none => tree.nodes.find? (fun n => n.ntype == "GROUP_OUTPUT")

/-- The tree-level effect of `inject_curve_to_mesh` (source
lines 52-81), given a located tree: no-op when the reserved name is
present, no output node exists, or the output's first input is not
linked; otherwise remove that first incoming link, append the bridging
node, and append the two links routing the recorded upstream source
through it. -/
def injectTree (tree : NodeTree) : NodeTree :=
  if hasAutoNode tree then tree
  else
    match findOutputNode tree with
    | none => tree
    | some output_node =>
      match output_node.inputs.head? with
      | none => tree
      | some in0 =>
        match tree.links.filter (fun l => l.toSocket == Socket.mk output_node.name in0) with
        | [] => tree
        | link :: _ =>
          let from_socket := link.fromSocket
          let c2m : Node :=
            { name := AUTO_NODE_NAME
              ntype := "GeometryNodeCurveToMesh"
              is_active_output := false
              inputs := ["Curve"]
              outputs := ["Mesh"]
              locx := output_node.locx - 200
              locy := output_node.locy
              label := "Auto Renderer Fix"
              select := false }
          { tree with
            nodes := tree.nodes ++ [c2m]
            links := tree.links.erase link ++
              [⟨from_socket, ⟨AUTO_NODE_NAME, "Curve"⟩⟩,
               ⟨⟨AUTO_NODE_NAME, "Mesh"⟩, Socket.mk output_node.name in0⟩] }

/-- The tree-level effect of `remove_curve_to_mesh` (source
lines 83-98), given a located tree: no-op when the reserved name is
absent; otherwise, when both the bridging node's Curve input and Mesh
output are linked, add a direct link from the Curve input's upstream
source to every target fed by the Mesh output, then delete the node —
which, in the host, also deletes every link still attached to it. -/
def removeTree (tree : NodeTree) : NodeTree :=
  match tree.nodes.find? (fun n => n.name == AUTO_NODE_NAME) with
  | none => tree
  | some node_to_del =>
    let input_socket : Socket := ⟨node_to_del.name, "Curve"⟩
    let output_socket : Socket := ⟨node_to_del.name, "Mesh"⟩
    let inLinks := tree.links.filter (fun l => l.toSocket == input_socket)
    let outLinks := tree.links.filter (fun l => l.fromSocket == output_socket)
    let links1 :=
      match inLinks with
      | [] => tree.links
      | fl :: _ =>
        if outLinks.isEmpty then tree.links
        else tree.links ++ outLinks.map (fun l : Link => Link.mk fl.fromSocket l.toSocket)
    { tree with
      nodes := tree.nodes.eraseP (fun n => n.name == AUTO_NODE_NAME)
      links := links1.filter (fun l =>
        !(l.fromSocket.node == AUTO_NODE_NAME || l.toSocket.node == AUTO_NODE_NAME)) }

/-- Replace the node group of the first matching modifier by `f` of it:
the write-back of the in-place tree mutation the source performs on the
tree returned by `find_modifier_and_tree`. -/
def applyToTree (f : NodeTree → NodeTree) : List Modifier → List Modifier
  | [] => []
  | m :: rest =>
    if modMatches m then { m with node_group := m.node_group.map f } :: rest
    else m :: applyToTree f rest

/-- The object-level `inject_curve_to_mesh` (source lines 52-81):
locate the matching modifier's tree and mutate it in place. -/
def inject_curve_to_mesh (obj : Object) : Object :=
  { obj with modifiers := applyToTree injectTree obj.modifiers }

/-- The object-level `remove_curve_to_mesh` (source lines 83-98). -/
def remove_curve_to_mesh (obj : Object) : Object :=
  { obj with modifiers := applyToTree removeTree obj.modifiers }

-- SMART DRAWING LOGIC (source lines 105-236)

/-- One increment `vert_edge_counts[i] += 1` (source lines 163-165);
`List.set` leaves out-of-range indices unchanged, while the source
relies on the host guaranteeing in-range edge indices. -/
def bump (counts : List Nat) (i : Nat) : List Nat :=
  counts.set i (counts.getD i 0 + 1)

/-- The edge-degree table (source lines 162-165): start from
`[0] * len(mesh.vertices)` and bump both endpoint slots of every
edge. -/
def vert_edge_counts (nverts : Nat) (edges : List (Nat × Nat)) : List Nat :=
  edges.foldl (fun counts e => bump (bump counts e.1) e.2) (List.replicate nverts 0)

/-- The classification heuristic (source line 183): an edge is an
isolated hair exactly when both endpoint entries of the degree table
read `1`. -/
def is_isolated_hair (counts : List Nat) (e : Nat × Nat) : Bool :=
  counts.getD e.1 0 == 1 && counts.getD e.2 0 == 1

/-- Specification-side edge degree of a vertex: how many endpoint slots
of the edge list hold that vertex (a loop edge counts twice, exactly as
the source's table increments both of its slots). -/
def edgeDegree (edges : List (Nat × Nat)) (v : Nat) : Nat :=
  match edges with
  | [] => 0
  | e :: rest =>
    (if e.1 = v then 1 else 0) + (if e.2 = v then 1 else 0) + edgeDegree rest v

/-- The caller-side zero clamp (source lines 145-146):
`if modifier_graph_scale == 0: modifier_graph_scale = 0.001`. -/
def clampedGraphScale (m : Modifier) : ℚ :=
  let modifier_graph_scale := get_modifier_scale_value m
  if modifier_graph_scale = 0 then 1 / 1000 else modifier_graph_scale

/-- The gradient-limit read (source line 128):
`getattr(scene, "sd_cgraph_gradient_max", 1.0)`. -/
def limit_setting (scene : Scene) : ℚ :=
  scene.sd_cgraph_gradient_max.getD 1

/-- The target-modifier search the draw callback performs inline
(source lines 138-143); same condition as the locator. -/
def findTargetMod (obj : Object) : Option Modifier :=
  obj.modifiers.find? modMatches

/-- The GPU-state effect of one iteration of the draw callback's main
loop (source lines 134-231).  Batch contents (positions, colors) feed
only the shader draw calls; the loop touches `gpu.state` only to thin
the line width for a non-empty connector batch and restore it right
after, re-reading the thickness from the scene (lines 222-229). -/
def draw_object (scene : Scene) (st : GPUState) (obj : Object) : GPUState :=
  if !obj.visible || !(obj.otype == "MESH" || obj.otype == "CURVE") then st
  else
    match findTargetMod obj with
    | none => st
    | some target_mod =>
      let _modifier_graph_scale := clampedGraphScale target_mod
      match obj.eval_mesh with
      | none => st
      | some mesh =>
        if mesh.edges.length > 0 then
          let counts := vert_edge_counts mesh.nverts mesh.edges
          let connector_nonempty := mesh.edges.any (fun e => !is_isolated_hair counts e)
          if connector_nonempty then
            let prev_width := scene.sd_cgraph_thickness.getD 2
            let st1 := { st with line_width := max 1 (prev_width - 1) }
            { st1 with line_width := prev_width }
          else st
        else st

/-- The GPU-state effect of `draw_lines_callback` (source
lines 105-236).  A `none` context models the acquisition failure at
step 1 (the bare `except: return`), which aborts before any state
mutation.  Shader selection (lines 119-124) touches no `gpu.state`. -/
def draw_lines_callback (ctx : Option Scene) (st : GPUState) : GPUState :=
  match ctx with
  | none => st
  | some scene =>
    let st1 := { st with line_width := scene.sd_cgraph_thickness.getD 2 }
    let st2 := { st1 with
      depth_test := if scene.sd_cgraph_always_on_top.getD true then "NONE" else "LESS_EQUAL" }
    let st3 := scene.objects.foldl (draw_object scene) st2
    let st4 :=
      if scene.sd_cgraph_always_on_top.getD true then { st3 with depth_test := "LESS_EQUAL" }
      else st3
    { st4 with line_width := 1 }

-- UI & REGISTRATION (source lines 243-372)

/-- The toggle operator `SNA_OT_ToggleRenderer.execute` (source
lines 247-269): when active, drop the draw handler (ignoring stale
handles), clear the flag and remove the bridging node from every scene
object; when inactive, inject every scene object, install a draw
handler if none is installed, and set the flag.  Redraw tagging and the
status report have no modelled effect. -/
def toggle_execute (st : GlobalState) (scene : Scene) : GlobalState × Scene :=
  if st.is_drawing_active then
    (⟨none, false⟩, { scene with objects := scene.objects.map remove_curve_to_mesh })
  else
    let dh := match st.draw_handler with | none => some 0 | some h => some h
    (⟨dh, true⟩, { scene with objects := scene.objects.map inject_curve_to_mesh })

/-- Whether no node tree attached to any modifier of the list holds a
node with the reserved name. -/
def modsNoAuto (mods : List Modifier) : Bool :=
  mods.all (fun m =>
    match m.node_group with
    | some g => !hasAutoNode g
    | none => true)

/-- Whether no node tree of any scene object holds a node with the
reserved name. -/
def noAutoAnywhere (sc : Scene) : Bool :=
  sc.objects.all (fun obj => modsNoAuto obj.modifiers)

/-- The refresh operator `SNA_OT_RefreshNodes.execute` (source
lines 274-278): gated on the active flag; when active, re-inject every
scene object. -/
def refresh_execute (st : GlobalState) (scene : Scene) : Scene :=
  if st.is_drawing_active then
    { scene with objects := scene.objects.map inject_curve_to_mesh }
  else scene

/-- The default the extension registers for the gradient-limit property
(source line 345). -/
def registered_gradient_max_default : ℚ := 1 / 10

/-- Property attachment performed by `register` (source lines 336-350):
afterwards every scene field is present, unset fields taking the
registered defaults. -/
def registerSceneProps (scene : Scene) : Scene :=
  { scene with
    sd_cgraph_thickness := some (scene.sd_cgraph_thickness.getD 2)
    sd_cgraph_always_on_top := some (scene.sd_cgraph_always_on_top.getD true)
    sd_cgraph_use_gradient := some (scene.sd_cgraph_use_gradient.getD false)
    sd_cgraph_gradient_max :=
      some (scene.sd_cgraph_gradient_max.getD registered_gradient_max_default)
    sd_cgraph_connector_color := some (scene.sd_cgraph_connector_color.getD (1, 1, 1, 1)) }

-- Concrete example data used by the witness theorems.

/-- A sample curve-producing node. -/
def exCurveNode : Node :=
  ⟨"Curve Line", "GeometryNodeCurveLine", false, [], ["Curve"], 0, 0, "", false⟩

/-- A sample group-output node flagged as the active output. -/
def exOutNode : Node :=
  ⟨"Group Output", "GROUP_OUTPUT", true, ["Geometry"], [], 200, 0, "", false⟩

/-- The upstream source socket of the sample chain. -/
def exSrc : Socket := ⟨"Curve Line", "Curve"⟩

/-- A sample single-chain cgraph tree: one curve source feeding the
output node's geometry input. -/
def exTree : NodeTree :=
  ⟨"SD_CGraph_Test", [exCurveNode, exOutNode], [⟨exSrc, ⟨"Group Output", "Geometry"⟩⟩]⟩

/-- A sample matching modifier carrying the tree. -/
def exMod : Modifier := ⟨"NODES", some exTree, [("Graph Scale", PVal.pfloat 2)]⟩

/-- A sample modifier whose scale probe yields exactly zero. -/
def exModZero : Modifier := ⟨"NODES", none, [("Scale", PVal.pint 0)]⟩

/-- A sample modifier holding none of the candidate scale keys. -/
def exModNoKeys : Modifier := ⟨"NODES", none, [("Other", PVal.pstr "x")]⟩

/-- A sample mesh-kind object carrying the matching modifier. -/
def exObj : Object :=
  ⟨"Wave", "MESH", true, [exMod], some ⟨4, [(0, 1), (2, 3)]⟩, none⟩

/-- A sample scene holding the object, with no extension properties
attached. -/
def exScene : Scene := ⟨[exObj], none, none, none, none, none⟩

end SDCGraph

namespace SDCGraph

-- Helper lemmas.

/-- The probe loop, restated through `List.findSome?`: it yields the
first numeric value among the probed keys and falls back to 1. -/
theorem scaleProbe_eq_findSome (props : List (String × PVal)) :
    ∀ keys : List String,
      scaleProbe props keys
        = ((keys.findSome? (fun k => numValue (dictGet props k))).getD 1)
  | [] => rfl
  | key :: rest => by
    rw [List.findSome?_cons]
    cases h : dictGet props key with
    | none => simpa [scaleProbe, h, numValue] using scaleProbe_eq_findSome props rest
    | some pv =>
      cases pv <;> simp [scaleProbe, h, numValue, scaleProbe_eq_findSome props rest]

/-- Conversion value behind intensity 0: hue 0.66 maps to an almost
pure blue. -/
theorem hsv_at_hue_blue : hsv_to_rgb (33 / 50) 1 1 = (0, 1 / 25, 1) := by
  unfold hsv_to_rgb
  have h1 : |(33 / 50 : ℚ) * 6 - 3| = 24 / 25 := by rw [abs_of_nonneg] <;> norm_num
  have h2 : |(33 / 50 : ℚ) * 6 - 2| = 49 / 25 := by rw [abs_of_nonneg] <;> norm_num
  have h3 : |(33 / 50 : ℚ) * 6 - 4| = 1 / 25 := by rw [abs_of_nonpos] <;> norm_num
  rw [h1, h2, h3]
  unfold clamp01
  norm_num

/-- Conversion value behind intensity 1/2: hue 0.33 maps to an almost
pure green. -/
theorem hsv_at_hue_green : hsv_to_rgb (33 / 100) 1 1 = (1 / 50, 1, 0) := by
  unfold hsv_to_rgb
  have h1 : |(33 / 100 : ℚ) * 6 - 3| = 51 / 50 := by rw [abs_of_nonpos] <;> norm_num
  have h2 : |(33 / 100 : ℚ) * 6 - 2| = 1 / 50 := by rw [abs_of_nonpos] <;> norm_num
  have h3 : |(33 / 100 : ℚ) * 6 - 4| = 101 / 50 := by rw [abs_of_nonpos] <;> norm_num
  rw [h1, h2, h3]
  unfold clamp01
  norm_num

/-- Conversion value behind intensity 1: hue 0 maps to pure red. -/
theorem hsv_at_hue_red : hsv_to_rgb 0 1 1 = (1, 0, 0) := by
  unfold hsv_to_rgb
  have h1 : |(0 : ℚ) * 6 - 3| = 3 := by rw [abs_of_nonpos] <;> norm_num
  have h2 : |(0 : ℚ) * 6 - 2| = 2 := by rw [abs_of_nonpos] <;> norm_num
  have h3 : |(0 : ℚ) * 6 - 4| = 4 := by rw [abs_of_nonpos] <;> norm_num
  rw [h1, h2, h3]
  unfold clamp01
  norm_num

/-- The heatmap mapper at intensity 0. -/
theorem heatmap_at_zero (a : ℚ) : get_heatmap_color 0 a = (0, 1 / 25, 1, a) := by
  simp only [get_heatmap_color]
  norm_num [hsv_at_hue_blue]

/-- The heatmap mapper at intensity 1/2. -/
theorem heatmap_at_half (a : ℚ) : get_heatmap_color (1 / 2) a = (1 / 50, 1, 0, a) := by
  simp only [get_heatmap_color]
  norm_num [hsv_at_hue_green]

/-- The heatmap mapper at intensity 1. -/
theorem heatmap_at_one (a : ℚ) : get_heatmap_color 1 a = (1, 0, 0, a) := by
  simp only [get_heatmap_color]
  norm_num [hsv_at_hue_red]

/-- Bumping preserves the table length. -/
theorem bump_length (counts : List Nat) (i : Nat) :
    (bump counts i).length = counts.length := by
  simp [bump]

/-- Reading the table after one in-range bump: the bumped entry grew by
one, all others are unchanged. -/
theorem bump_getD (counts : List Nat) (i j : Nat) (hi : i < counts.length) :
    (bump counts i).getD j 0 = counts.getD j 0 + (if i = j then 1 else 0) := by
  by_cases h : i = j
  · subst h
    simp [bump, List.getElem?_set_self hi]
  · simp [bump, List.getElem?_set_ne h, h]

/-- The degree-table fold over the edge list adds the edge degree of a
vertex to its initial entry, for in-range edges. -/
theorem counts_fold_getD :
    ∀ (edges : List (Nat × Nat)) (init : List Nat) (v : Nat),
      (∀ e ∈ edges, e.1 < init.length ∧ e.2 < init.length) →
      (edges.foldl (fun c e => bump (bump c e.1) e.2) init).getD v 0
        = init.getD v 0 + edgeDegree edges v
  | [], init, v, _ => by simp [edgeDegree]
  | e :: rest, init, v, hvalid => by
    have h1 : e.1 < init.length := (hvalid e (List.mem_cons_self e rest)).1
    have h2 : e.2 < init.length := (hvalid e (List.mem_cons_self e rest)).2
    have hlen : (bump (bump init e.1) e.2).length = init.length := by
      rw [bump_length, bump_length]
    rw [List.foldl_cons]
    rw [counts_fold_getD rest (bump (bump init e.1) e.2) v (fun e2 he2 => by
      rw [hlen]
      exact hvalid e2 (List.mem_cons_of_mem e he2))]
    rw [bump_getD _ _ _ (by rw [bump_length]; exact h2), bump_getD _ _ _ h1]
    show _ = _ + ((if e.1 = v then 1 else 0) + (if e.2 = v then 1 else 0)
      + edgeDegree rest v)
    omega

/-- The degree table built by the draw callback reads back the edge
degree of every vertex, provided edges index real vertices. -/
theorem vert_edge_counts_getD (nverts : Nat) (edges : List (Nat × Nat)) (v : Nat)
    (hvalid : ∀ e ∈ edges, e.1 < nverts ∧ e.2 < nverts) :
    (vert_edge_counts nverts edges).getD v 0 = edgeDegree edges v := by
  have h := counts_fold_getD edges (List.replicate nverts 0) v
    (by simpa using hvalid)
  rw [vert_edge_counts, h]
  by_cases hv : v < nverts
  · simp [List.getD_eq_getElem?_getD, List.getElem?_replicate, hv]
  · simp [List.getD_eq_getElem?_getD, List.getElem?_replicate, hv]

/-- A vertex of an edge in the list has positive degree. -/
theorem edgeDegree_pos_of_mem :
    ∀ {edges : List (Nat × Nat)} {e : Nat × Nat}, e ∈ edges →
      1 ≤ edgeDegree edges e.1 ∧ 1 ≤ edgeDegree edges e.2
  | f :: rest, e, he => by
    rcases List.mem_cons.mp he with h | h
    · subst h
      constructor <;> (simp only [edgeDegree]; split_ifs <;> omega)
    · obtain ⟨ih1, ih2⟩ := edgeDegree_pos_of_mem h
      constructor <;> (simp only [edgeDegree]; split_ifs <;> omega)

/-- Injection never renames the tree. -/
theorem injectTree_name (t : NodeTree) : (injectTree t).name = t.name := by
  unfold injectTree
  repeat' split
  all_goals rfl

/-- Injection either leaves the tree untouched or appends exactly one
node, named with the reserved name, to the node list. -/
theorem injectTree_build (t : NodeTree) :
    injectTree t = t ∨
    ∃ c2m links2, c2m.name = AUTO_NODE_NAME ∧
      injectTree t = NodeTree.mk t.name (t.nodes ++ [c2m]) links2 := by
  unfold injectTree
  repeat' split
  all_goals first
  | exact Or.inl rfl
  | exact Or.inr ⟨_, _, rfl, rfl⟩

/-- After injection the reserved name is present unless the call was a
no-op. -/
theorem injectTree_cases (t : NodeTree) :
    injectTree t = t ∨ hasAutoNode (injectTree t) = true := by
  rcases injectTree_build t with h | ⟨c2m, links2, hname, h⟩
  · exact Or.inl h
  · refine Or.inr ?_
    rw [h]
    simp [hasAutoNode, hname]

/-- C8's backbone: injection is idempotent on every tree. -/
theorem injectTree_idem (t : NodeTree) : injectTree (injectTree t) = injectTree t := by
  rcases injectTree_cases t with h | h
  · rw [h, h]
  · conv_lhs => rw [injectTree]
    rw [if_pos h]

/-- When the reserved name is absent, the by-name search of the removal
path finds nothing. -/
theorem find_auto_none {t : NodeTree} (h : hasAutoNode t = false) :
    t.nodes.find? (fun n => n.name == AUTO_NODE_NAME) = none := by
  rw [List.find?_eq_none]
  intro n hn
  simp only [hasAutoNode, List.any_eq_false] at h
  exact h n hn

/-- Removal is a no-op on a tree without the reserved name. -/
theorem removeTree_of_noAuto (t : NodeTree) (h : hasAutoNode t = false) :
    removeTree t = t := by
  unfold removeTree
  rw [find_auto_none h]

/-- Removing from a tree of the shape injection produces erases the
appended node, leaving no node with the reserved name. -/
theorem removeTree_append_noAuto (t : NodeTree) (h : hasAutoNode t = false)
    (c2m : Node) (links2 : List Link) (hname : c2m.name = AUTO_NODE_NAME) :
    hasAutoNode (removeTree (NodeTree.mk t.name (t.nodes ++ [c2m]) links2)) = false := by
  have hfind : (t.nodes ++ [c2m]).find? (fun n => n.name == AUTO_NODE_NAME)
      = some c2m := by
    rw [List.find?_append, find_auto_none h]
    simp [hname]
  have herase : (t.nodes ++ [c2m]).eraseP (fun n => n.name == AUTO_NODE_NAME)
      = t.nodes := by
    rw [List.eraseP_append_right]
    · simp [List.eraseP_cons, hname]
    · intro b hb
      simp only [hasAutoNode, List.any_eq_false] at h
      exact h b hb
  unfold removeTree
  rw [hfind]
  simp only [hasAutoNode] at h ⊢
  simpa [herase] using h

/-- Inject-then-remove never leaves the reserved name behind when it
was absent to begin with. -/
theorem remove_inject_noAuto (t : NodeTree) (h : hasAutoNode t = false) :
    hasAutoNode (removeTree (injectTree t)) = false := by
  rcases injectTree_build t with heq | ⟨c2m, links2, hname, heq⟩
  · rw [heq, removeTree_of_noAuto t h]
    exact h
  · rw [heq]
    exact removeTree_append_noAuto t h c2m links2 hname

/-- Rewriting the node group through a name-preserving tree function
does not change whether a modifier matches the naming convention. -/
theorem modMatches_map (f : NodeTree → NodeTree) (hf : ∀ t, (f t).name = t.name)
    (m : Modifier) :
    modMatches { m with node_group := m.node_group.map f } = modMatches m := by
  unfold modMatches
  cases m.node_group <;> simp [nameHasCgraph, hf]

/-- Inject-then-remove over a modifier list clears the reserved name
from every attached tree, provided none held it initially. -/
theorem modsNoAuto_remove_inject :
    ∀ mods : List Modifier, modsNoAuto mods = true →
      modsNoAuto (applyToTree removeTree (applyToTree injectTree mods)) = true
  | [], _ => rfl
  | m :: rest, h => by
    simp only [modsNoAuto, List.all_cons, Bool.and_eq_true] at h
    obtain ⟨hm, hrest⟩ := h
    by_cases hmatch : modMatches m
    · rw [applyToTree, if_pos hmatch, applyToTree,
        if_pos ((modMatches_map injectTree injectTree_name m).symm ▸ hmatch)]
      simp only [modsNoAuto, List.all_cons, Bool.and_eq_true]
      refine ⟨?_, hrest⟩
      cases hg : m.node_group with
      | none => simp [hg]
      | some g =>
        rw [hg] at hm
        simp only [Bool.not_eq_true'] at hm
        simp [hg, Option.map_map, Function.comp, remove_inject_noAuto g hm]
    · rw [applyToTree, if_neg hmatch, applyToTree, if_neg hmatch]
      simp only [modsNoAuto, List.all_cons, Bool.and_eq_true]
      exact ⟨hm, modsNoAuto_remove_inject rest hrest⟩

/-- The located output node is a node of the tree. -/
theorem findOutputNode_mem {t : NodeTree} {out : Node}
    (h : findOutputNode t = some out) : out ∈ t.nodes := by
  unfold findOutputNode at h
  cases hf : t.nodes.find? (fun n => n.ntype == "GROUP_OUTPUT" && n.is_active_output) with
  | some n =>
    rw [hf] at h
    cases h
    exact List.mem_of_find?_eq_some hf
  | none =>
    rw [hf] at h
    exact List.mem_of_find?_eq_some h

/-- Removal restores the direct source-to-output link on the exact tree
shape injection builds from a single linear chain. -/
theorem removeTree_chain (tname : String) (tnodes : List Node)
    (out_name in0 : String) (src : Socket) (c2m : Node)
    (hcname : c2m.name = AUTO_NODE_NAME)
    (hfindnone : tnodes.find? (fun n => n.name == AUTO_NODE_NAME) = none)
    (hOutName : out_name ≠ AUTO_NODE_NAME)
    (hSrc : src.node ≠ AUTO_NODE_NAME) :
    removeTree (NodeTree.mk tname (tnodes ++ [c2m])
        [Link.mk src (Socket.mk AUTO_NODE_NAME "Curve"),
         Link.mk (Socket.mk AUTO_NODE_NAME "Mesh") (Socket.mk out_name in0)])
      = NodeTree.mk tname tnodes [Link.mk src (Socket.mk out_name in0)] := by
  have hSrcNe : src ≠ Socket.mk AUTO_NODE_NAME "Mesh" := by
    intro hcon
    exact hSrc (by rw [hcon])
  have hfind : (tnodes ++ [c2m]).find? (fun n => n.name == AUTO_NODE_NAME)
      = some c2m := by
    rw [List.find?_append, hfindnone]
    simp [hcname]
  have herase : (tnodes ++ [c2m]).eraseP (fun n => n.name == AUTO_NODE_NAME)
      = tnodes := by
    rw [List.eraseP_append_right]
    · simp [List.eraseP_cons, hcname]
    · intro b hb
      have := List.find?_eq_none.mp hfindnone b hb
      simpa using this
  unfold removeTree
  rw [hfind]
  simp only [hcname]
  simp [List.filter_cons, hOutName, hSrcNe, Ne.symm hOutName, herase,
    Socket.mk.injEq, hSrc]

/-- Computation of the injection on a single linear chain: the incoming
link is removed, the bridging node appended, and the source rerouted
through the bridging node into the output's first input. -/
theorem injectTree_chain (tree : NodeTree) (out : Node) (in0 : String) (src : Socket)
    (hNo : hasAutoNode tree = false)
    (hOut : findOutputNode tree = some out)
    (hIn : out.inputs.head? = some in0)
    (hLinks : tree.links = [Link.mk src (Socket.mk out.name in0)]) :
    injectTree tree
      = NodeTree.mk tree.name
          (tree.nodes ++ [Node.mk AUTO_NODE_NAME "GeometryNodeCurveToMesh" false
            ["Curve"] ["Mesh"] (out.locx - 200) out.locy "Auto Renderer Fix" false])
          [Link.mk src (Socket.mk AUTO_NODE_NAME "Curve"),
           Link.mk (Socket.mk AUTO_NODE_NAME "Mesh") (Socket.mk out.name in0)] := by
  unfold injectTree
  rw [if_neg (by simp [hNo]), hOut]
  dsimp only
  rw [hIn]
  dsimp only
  rw [hLinks]
  simp [List.filter_cons]

/-- The per-object loop body never touches the depth test. -/
theorem draw_object_depth (scene : Scene) (st : GPUState) (obj : Object) :
    (draw_object scene st obj).depth_test = st.depth_test := by
  unfold draw_object
  repeat' split
  all_goals try rfl
  all_goals (dsimp only; split <;> rfl)

/-- Folding the loop body over any object list preserves the depth
test. -/
theorem foldl_draw_object_depth (scene : Scene) :
    ∀ (objs : List Object) (st : GPUState),
      (objs.foldl (draw_object scene) st).depth_test = st.depth_test
  | [], _ => rfl
  | o :: rest, st => by
    rw [List.foldl_cons, foldl_draw_object_depth scene rest, draw_object_depth]

-- Claim theorems.

/-- C3: the renderer classifies an edge as "isolated segment" exactly
when both of its endpoint vertices have edge-degree exactly 1 in the
degree table; consequently, in an edge list where every vertex has
degree 2 no edge is isolated, and in an edge list of disjoint
two-vertex segments (every vertex of degree 1) every edge is
isolated. -/
theorem c3_edge_classification (nverts : Nat) (edges : List (Nat × Nat))
    (hvalid : ∀ e ∈ edges, e.1 < nverts ∧ e.2 < nverts) :
    (∀ e ∈ edges,
      is_isolated_hair (vert_edge_counts nverts edges) e = true
        ↔ (edgeDegree edges e.1 = 1 ∧ edgeDegree edges e.2 = 1))
    ∧ ((∀ v < nverts, edgeDegree edges v ≠ 0 → edgeDegree edges v = 2) →
        ∀ e ∈ edges, is_isolated_hair (vert_edge_counts nverts edges) e = false)
    ∧ ((∀ v < nverts, edgeDegree edges v ≠ 0 → edgeDegree edges v = 1) →
        ∀ e ∈ edges, is_isolated_hair (vert_edge_counts nverts edges) e = true) := by
  have key : ∀ e ∈ edges,
      is_isolated_hair (vert_edge_counts nverts edges) e = true
        ↔ (edgeDegree edges e.1 = 1 ∧ edgeDegree edges e.2 = 1) := by
    intro e he
    unfold is_isolated_hair
    rw [vert_edge_counts_getD nverts edges e.1 hvalid,
        vert_edge_counts_getD nverts edges e.2 hvalid]
    simp
  refine ⟨key, ?_, ?_⟩
  · intro hdeg e he
    obtain ⟨hp1, hp2⟩ := edgeDegree_pos_of_mem he
    cases hb : is_isolated_hair (vert_edge_counts nverts edges) e with
    | false => rfl
    | true =>
      obtain ⟨h1, h2⟩ := (key e he).mp hb
      have := hdeg e.1 (hvalid e he).1 (by omega)
      omega
  · intro hdeg e he
    obtain ⟨hp1, hp2⟩ := edgeDegree_pos_of_mem he
    exact (key e he).mpr
      ⟨hdeg e.1 (hvalid e he).1 (by omega), hdeg e.2 (hvalid e he).2 (by omega)⟩

/-- Witness for C3 on the sample mesh of two disjoint segments. -/
theorem c3_edge_classification_witness :
    is_isolated_hair (vert_edge_counts 4 [(0, 1), (2, 3)]) (0, 1) = true :=
  (c3_edge_classification 4 [(0, 1), (2, 3)] (by decide)).2.2 (by decide)
    (0, 1) (by decide)

/-- C4: the graph-parameter reader probes the keys "Graph Scale",
"Input_3", "GraphScale", "Scale" in that fixed order and returns the
value of the first key holding a numeric value (the `List.findSome?`
over the priority list); when no candidate key holds a number it
returns 1.0. -/
theorem c4_scale_reader_priority :
    candidate_keys = ["Graph Scale", "Input_3", "GraphScale", "Scale"]
    ∧ (∀ m : Modifier,
        get_modifier_scale_value m
          = ((candidate_keys.findSome? (fun k => numValue (dictGet m.props k))).getD 1))
    ∧ (∀ m : Modifier,
        (∀ k ∈ candidate_keys, numValue (dictGet m.props k) = none) →
        get_modifier_scale_value m = 1) := by
  refine ⟨rfl, fun m => scaleProbe_eq_findSome m.props candidate_keys, fun m h => ?_⟩
  rw [get_modifier_scale_value, scaleProbe_eq_findSome m.props candidate_keys]
  rw [List.findSome?_eq_none_iff.mpr h]
  rfl

/-- Witness for C4 at a modifier holding none of the candidate keys. -/
theorem c4_scale_reader_priority_witness :
    get_modifier_scale_value exModNoKeys = 1 :=
  c4_scale_reader_priority.2.2 exModNoKeys (by decide)

/-- C5: the heatmap mapper is a pure function of its two arguments: for
every intensity in the unit interval and every opacity it returns
exactly the hue-saturation-value conversion of hue (1 − v) · 0.66 at
saturation 1 and value 1, with the given alpha appended; intensity 0
yields a blue-dominant color, intensity 1/2 a green-dominant one and
intensity 1 a red-dominant one. -/
theorem c5_heatmap_color (v a : ℚ) (hv0 : 0 ≤ v) (hv1 : v ≤ 1) :
    get_heatmap_color v a
      = ((hsv_to_rgb ((1 - v) * (66 / 100)) 1 1).1,
         (hsv_to_rgb ((1 - v) * (66 / 100)) 1 1).2.1,
         (hsv_to_rgb ((1 - v) * (66 / 100)) 1 1).2.2, a)
    ∧ blueDominant (get_heatmap_color 0 a)
    ∧ greenDominant (get_heatmap_color (1 / 2) a)
    ∧ redDominant (get_heatmap_color 1 a) := by
  refine ⟨rfl, ?_, ?_, ?_⟩
  · rw [heatmap_at_zero]
    exact ⟨by norm_num, by norm_num⟩
  · rw [heatmap_at_half]
    exact ⟨by norm_num, by norm_num⟩
  · rw [heatmap_at_one]
    exact ⟨by norm_num, by norm_num⟩

/-- Witness for C5 at intensities 1/2 and 0 with opacity 1. -/
theorem c5_heatmap_color_witness :
    greenDominant (get_heatmap_color (1 / 2) 1)
    ∧ blueDominant (get_heatmap_color 0 1) :=
  ⟨(c5_heatmap_color (1 / 2) 1 (by norm_num) (by norm_num)).2.2.1,
   (c5_heatmap_color 0 1 (by norm_num) (by norm_num)).2.1⟩

/-- C6: the graph-scale value used by the draw loop is the reader's
result with an exact zero replaced by 0.001; it is therefore never
zero, so the gradient path's division of edge length by the scale is a
division by a nonzero number. -/
theorem c6_zero_scale_clamped (m : Modifier) :
    clampedGraphScale m ≠ 0
    ∧ (get_modifier_scale_value m = 0 → clampedGraphScale m = 1 / 1000)
    ∧ (get_modifier_scale_value m ≠ 0 →
        clampedGraphScale m = get_modifier_scale_value m) := by
  unfold clampedGraphScale
  by_cases h : get_modifier_scale_value m = 0 <;> simp [h]

/-- Witness for C6 at a modifier whose probed scale is exactly zero. -/
theorem c6_zero_scale_clamped_witness :
    clampedGraphScale exModZero = 1 / 1000 :=
  (c6_zero_scale_clamped exModZero).2.1 (by decide)

/-- C7: whenever the draw callback does not abort at step 1 (the scene
context is available), it finishes with the depth test in the standard
occlusion-respecting mode LESS_EQUAL and the line width reset to 1.0,
whatever the always-on-top setting and whatever the per-object loop did
to the line width. -/
theorem c7_gpu_state_restored (scene : Scene) (st : GPUState) :
    (draw_lines_callback (some scene) st).depth_test = "LESS_EQUAL"
    ∧ (draw_lines_callback (some scene) st).line_width = 1 := by
  constructor
  · unfold draw_lines_callback
    by_cases h : scene.sd_cgraph_always_on_top.getD true <;>
      simp [h, foldl_draw_object_depth]
  · rfl

/-- C9: refresh while the overlay is inactive leaves the scene — hence
every node tree of every scene object — unchanged, because the
operator's body is gated on the active flag. -/
theorem c9_refresh_gated (st : GlobalState) (sc : Scene)
    (h : st.is_drawing_active = false) :
    refresh_execute st sc = sc := by
  simp [refresh_execute, h]

/-- Witness for C9 at an inactive state and the sample scene. -/
theorem c9_refresh_gated_witness :
    refresh_execute (GlobalState.mk none false) exScene = exScene :=
  c9_refresh_gated (GlobalState.mk none false) exScene rfl

/-- C10: when the gradient-limit property is missing from the scene,
the draw callback substitutes 1.0 (the `getattr` fallback), not the
0.1 default that registration declares; the 0.1 default is read only
once the property has been attached by registration. -/
theorem c10_gradient_limit_fallback :
    (∀ sc : Scene, sc.sd_cgraph_gradient_max = none → limit_setting sc = 1)
    ∧ (∀ sc : Scene, sc.sd_cgraph_gradient_max = none →
        limit_setting (registerSceneProps sc) = registered_gradient_max_default)
    ∧ registered_gradient_max_default ≠ 1 := by
  refine ⟨fun sc h => ?_, fun sc h => ?_, ?_⟩
  · simp [limit_setting, h]
  · simp [limit_setting, registerSceneProps, h]
  · norm_num [registered_gradient_max_default]

/-- Witness for C10 at the sample scene, which has no properties
attached. -/
theorem c10_gradient_limit_fallback_witness : limit_setting exScene = 1 :=
  c10_gradient_limit_fallback.1 exScene rfl

/-- C1: on a node tree forming a single linear chain — one upstream
source socket feeding the output node's first (geometry) input, with no
reserved-name node present — injection followed by removal restores the
tree exactly: the same source socket feeds the same destination socket
as before, and no node named SNA_Auto_CurveToMesh remains. -/
theorem c1_inject_remove_roundtrip (tree : NodeTree) (out : Node) (in0 : String)
    (src : Socket)
    (hNo : hasAutoNode tree = false)
    (hOut : findOutputNode tree = some out)
    (hIn : out.inputs.head? = some in0)
    (hLinks : tree.links = [Link.mk src (Socket.mk out.name in0)])
    (hSrc : src.node ≠ AUTO_NODE_NAME) :
    removeTree (injectTree tree) = tree
    ∧ hasAutoNode (removeTree (injectTree tree)) = false := by
  have hOutName : out.name ≠ AUTO_NODE_NAME := by
    have hmem := findOutputNode_mem hOut
    simp only [hasAutoNode, List.any_eq_false] at hNo
    simpa using hNo out hmem
  have hmain : removeTree (injectTree tree) = tree := by
    rw [injectTree_chain tree out in0 src hNo hOut hIn hLinks]
    rw [removeTree_chain tree.name tree.nodes out.name in0 src _ rfl
      (find_auto_none hNo) hOutName hSrc]
    rw [← hLinks]
  exact ⟨hmain, by rw [hmain]; exact hNo⟩

/-- Witness for C1 on the sample single-chain tree. -/
theorem c1_inject_remove_roundtrip_witness :
    removeTree (injectTree exTree) = exTree :=
  (c1_inject_remove_roundtrip exTree exOutNode "Geometry" exSrc
    (by decide) (by decide) (by decide) (by decide) (by decide)).1

/-- C2: toggling from the inactive state and then toggling again
returns the global state to inactive — the active flag is false and the
draw-handler handle is cleared — and no node tree of any scene object
contains a node named SNA_Auto_CurveToMesh, given the reserved-name
contract that no tree held one before. -/
theorem c2_toggle_twice_inactive (st : GlobalState) (sc : Scene)
    (hInactive : st.is_drawing_active = false)
    (hNo : noAutoAnywhere sc = true) :
    (toggle_execute (toggle_execute st sc).1 (toggle_execute st sc).2).1.is_drawing_active
        = false
    ∧ (toggle_execute (toggle_execute st sc).1 (toggle_execute st sc).2).1.draw_handler
        = none
    ∧ noAutoAnywhere
        (toggle_execute (toggle_execute st sc).1 (toggle_execute st sc).2).2 = true := by
  have hact : (toggle_execute st sc).1.is_drawing_active = true := by
    simp [toggle_execute, hInactive]
  have hobjs : (toggle_execute st sc).2.objects = sc.objects.map inject_curve_to_mesh := by
    simp [toggle_execute, hInactive]
  have h2 : toggle_execute (toggle_execute st sc).1 (toggle_execute st sc).2
      = (GlobalState.mk none false,
         { (toggle_execute st sc).2 with
            objects := (toggle_execute st sc).2.objects.map remove_curve_to_mesh }) := by
    rw [toggle_execute, if_pos hact]
  rw [h2]
  refine ⟨rfl, rfl, ?_⟩
  simp only [noAutoAnywhere, hobjs, List.map_map, List.all_map, List.all_eq_true,
    Function.comp]
  intro obj hobj
  simp only [noAutoAnywhere, List.all_eq_true] at hNo
  have hmods : (remove_curve_to_mesh (inject_curve_to_mesh obj)).modifiers
      = applyToTree removeTree (applyToTree injectTree obj.modifiers) := rfl
  rw [hmods]
  exact modsNoAuto_remove_inject obj.modifiers (hNo obj hobj)

/-- Witness for C2 on the sample scene from the inactive initial
state. -/
theorem c2_toggle_twice_inactive_witness :
    noAutoAnywhere
      (toggle_execute (toggle_execute (GlobalState.mk none false) exScene).1
        (toggle_execute (GlobalState.mk none false) exScene).2).2 = true :=
  (c2_toggle_twice_inactive (GlobalState.mk none false) exScene rfl (by decide)).2.2

/-- C8: injecting twice is the same as injecting once — the second call
is a no-op because the reserved name is already present — and on a tree
where the first call actually injects (no reserved-name node, an output
node whose first input is linked), exactly one node named
SNA_Auto_CurveToMesh remains. -/
theorem c8_inject_idempotent (tree : NodeTree)
    (hNo : hasAutoNode tree = false)
    (out : Node) (hOut : findOutputNode tree = some out)
    (in0 : String) (hIn : out.inputs.head? = some in0)
    (link : Link) (rest : List Link)
    (hLink : tree.links.filter (fun l => l.toSocket == Socket.mk out.name in0)
      = link :: rest) :
    injectTree (injectTree tree) = injectTree tree
    ∧ (injectTree (injectTree tree)).nodes.countP
        (fun n => n.name == AUTO_NODE_NAME) = 1 := by
  refine ⟨injectTree_idem tree, ?_⟩
  rw [injectTree_idem tree]
  unfold injectTree
  rw [if_neg (by simp [hNo]), hOut]
  dsimp only
  rw [hIn]
  dsimp only
  rw [hLink]
  dsimp only
  rw [List.countP_append, List.countP_eq_zero.mpr ?_]
  · simp
  · intro n hn
    simp only [hasAutoNode, List.any_eq_false] at hNo
    simpa using hNo n hn

/-- Witness for C8 on the sample single-chain tree. -/
theorem c8_inject_idempotent_witness :
    (injectTree (injectTree exTree)).nodes.countP
      (fun n => n.name == AUTO_NODE_NAME) = 1 :=
  (c8_inject_idempotent exTree (by decide) exOutNode (by decide) "Geometry" (by decide)
    (Link.mk exSrc (Socket.mk "Group Output" "Geometry")) [] (by decide)).2

end SDCGraph
